import Mathlib

/-!
# Verification of the ORCA evaluation-template scoring harness

Shallow embedding of `src/score.py` and `src/utils.py`
(Sage-Bionetworks-Challenges/orca-evaluation-templates).

Modelling conventions:
* A JSON results document (as produced by `json.load` on `results.json`)
  is an association list `Doc` of string keys and `JValue` values; `Doc.get`
  is Python `dict.get`, `Doc.merge` is Python `d |= e` (keys of `e`
  overwrite the values in `d` in place, new keys are appended in order).
* A groundtruth folder is the list of file names that `glob` returns for
  `folder/*` (so the manifest filter on basenames is a filter on these
  names); `extract_gt_file` raising `ValueError` is the `Except.error`
  branch carrying the message.
* The CSV tables already read by `pandas.read_csv` are given as lists of
  typed rows (`GtRow`, `PredRow`); floats are modelled as rationals and a
  missing probability after the left join (pandas `NaN`) as `none`.
* The sklearn metric functions are external library calls: they are a
  parameter `MetricLib` of the scoring functions, each returning
  `Except String _` where `Except.error` models the `ValueError` that the
  caller catches.
* `main` maps a run's inputs to `Except String RunOutcome`: `Except.ok`
  is a run that reaches the final `out.write`/`print` (carrying the
  written document and the printed status), `Except.error` is a run that
  terminates with the uncaught `ValueError` of `extract_gt_file`, before
  anything is written.  `readResult = none` models the caught
  `FileNotFoundError`/`JSONDecodeError` of the initial `json.load`.
-/

namespace OrcaEval

/-- A JSON value stored in the results document: a string or a number
(metric values). -/
inductive JValue where
  | str (s : String)
  | num (q : ℚ)
  deriving DecidableEq

/-- A JSON object as an insertion-ordered association list, as produced by
`json.load`. -/
abbrev Doc := List (String × JValue)

/-- Python `dict.get`: the value at the first occurrence of the key, or
`none`. -/
def Doc.get : Doc → String → Option JValue
  | [], _ => none
  | kv :: rest, k => if kv.1 = k then some kv.2 else Doc.get rest k

/-- Python `d |= e`: keys already in `d` are updated in place with the
value from `e`; keys only in `e` are appended in their order. -/
def Doc.merge (d e : Doc) : Doc :=
  d.map (fun kv => (kv.1, (Doc.get e kv.1).getD kv.2))
    ++ e.filter (fun kv => (Doc.get d kv.1).isNone)

/-- The basename of the Synapse manifest file that `extract_gt_file`
filters out. -/
def MANIFEST : String := "SYNAPSE_METADATA_MANIFEST.tsv"

/-- `utils.extract_gt_file`: given the names that `glob(folder/*)`
returns, drop the manifest and return the unique remaining file, raising
`ValueError` (the `Except.error` branch) when the remainder does not have
exactly one element. -/
def extract_gt_file (folder : List String) : Except String String :=
  let files := folder.filter (fun f => f ≠ MANIFEST)
  match files with
  | [f] => Except.ok f
  | fs =>
      Except.error
        ("Expected exactly one groundtruth file in folder. Got "
          ++ toString fs.length ++ ". Exiting.")

/-- One row of the groundtruth CSV after `pandas.read_csv` with
`GROUNDTRUTH_COLS = ⟨id : str, disease : int⟩`. -/
structure GtRow where
  id : String
  disease : Int
  deriving DecidableEq

/-- One row of the predictions CSV after `pandas.read_csv` with
`PREDICTION_COLS = ⟨id : str, probability : float⟩`. -/
structure PredRow where
  id : String
  probability : ℚ
  deriving DecidableEq

/-- `truth.merge(pred, how="left", on="id")`: for each groundtruth row in
order, one output row per matching prediction row (in prediction order),
or a single row with a missing probability (`NaN`, modelled `none`) when
no prediction matches. -/
def leftMerge (truth : List GtRow) (pred : List PredRow) :
    List (GtRow × Option ℚ) :=
  truth.flatMap (fun t =>
    match pred.filter (fun p => p.id = t.id) with
    | [] => [(t, none)]
    | ms => ms.map (fun p => (t, some p.probability)))

/-- The sklearn metric functions used by `score_task1`, taken as external
library parameters.  Each returns `Except.error` to model the
`ValueError` the caller catches.  `precision_recall_curve` returns
`(precision, recall, thresholds)`. -/
structure MetricLib where
  roc_auc_score : List Int → List (Option ℚ) → Except String ℚ
  precision_recall_curve :
    List Int → List (Option ℚ) → Except String (List ℚ × List ℚ × List ℚ)
  auc : List ℚ → List ℚ → Except String ℚ

/-- `score.score_task1`: left-join predictions onto groundtruth on `id`,
then `roc_auc_score`, `precision_recall_curve` and `auc(recall,
precision)` over the joined `disease` and `probability` columns, returning
the metrics dictionary as an ordered key-value list. -/
def score_task1 (M : MetricLib) (truth : List GtRow) (pred : List PredRow) :
    Except String (List (String × ℚ)) :=
  let merged := leftMerge truth pred
  let disease := merged.map (fun r => r.1.disease)
  let probability := merged.map (fun r => r.2)
  match M.roc_auc_score disease probability with
  | Except.error m => Except.error m
  | Except.ok roc =>
      match M.precision_recall_curve disease probability with
      | Except.error m => Except.error m
      | Except.ok (precisions, recalls, _) =>
          match M.auc recalls precisions with
          | Except.error m => Except.error m
          | Except.ok auprc =>
              Except.ok [("auc_roc", roc), ("auprc", auprc)]

/-- The exceptions that the inner `try` of `main` distinguishes. -/
inductive ScoreExn where
  | valueError (msg : String)
  | lookupError
  deriving DecidableEq

/-- `score.score`: route to the task-specific scoring function; the
routing table holds only `"task1"`, anything else raises `LookupError`. -/
def score (M : MetricLib) (challenge_task : String)
    (truth : List GtRow) (pred : List PredRow) :
    Except ScoreExn (List (String × ℚ)) :=
  if challenge_task = "task1" then
    match score_task1 M truth pred with
    | Except.ok s => Except.ok s
    | Except.error m => Except.error (ScoreExn.valueError m)
  else Except.error ScoreExn.lookupError

/-- The default results document substituted when reading `output_file`
raises `FileNotFoundError` or `JSONDecodeError`. -/
def defaultDoc : Doc :=
  [("validation_status", JValue.str ""),
   ("validation_errors", JValue.str
     ("Validation results not found. Proceeding with scoring but it "
       ++ "may fail or results may be inaccurate."))]

/-- The inputs of one run of `score.main`: the outcome of `json.load` on
the output file (`none` when it raised), the groundtruth folder listing,
the parsed groundtruth and prediction tables, and the `--task` option. -/
structure RunInput where
  readResult : Option Doc
  folder : List String
  truth : List GtRow
  pred : List PredRow
  task : String

/-- The observable outcome of a completed run of `score.main`: the
document written back to `output_file` and the status printed to stdout. -/
structure RunOutcome where
  written : Doc
  printed : String
  deriving DecidableEq

/-- The `else` branch of `main`'s validation gate: extract the
groundtruth file (its `ValueError` is uncaught, ending the run before
any write), then score inside the inner `try`, merging status, error
string and metric values into the results document. -/
def runScoring (M : MetricLib) (res : Doc) (inp : RunInput) :
    Except String RunOutcome :=
  match extract_gt_file inp.folder with
  | Except.error e => Except.error e
  | Except.ok _gt =>
      match score M inp.task inp.truth inp.pred with
      | Except.ok scores =>
          Except.ok
            ⟨Doc.merge res
              ([("score_status", JValue.str "SCORED"),
                ("score_errors", JValue.str "")]
                ++ scores.map (fun kv => (kv.1, JValue.num kv.2))),
             "SCORED"⟩
      | Except.error (ScoreExn.valueError _) =>
          Except.ok
            ⟨Doc.merge res
              [("score_status", JValue.str "INVALID"),
               ("score_errors", JValue.str
                 "Error encountered during scoring; submission not evaluated.")],
             "INVALID"⟩
      | Except.error ScoreExn.lookupError =>
          Except.ok
            ⟨Doc.merge res
              [("score_status", JValue.str "INVALID"),
               ("score_errors", JValue.str
                 ("Invalid challenge task specified: `" ++ inp.task ++ "`"))],
             "INVALID"⟩

/-- `score.main`: read the results document (substituting `defaultDoc`
when the read fails), skip scoring when `validation_status` is
`"INVALID"`, otherwise run the scoring branch; on completion write the
merged document and print the status. -/
def main (M : MetricLib) (inp : RunInput) : Except String RunOutcome :=
  let res := inp.readResult.getD defaultDoc
  if Doc.get res "validation_status" = some (JValue.str "INVALID") then
    Except.ok
      ⟨Doc.merge res
        [("score_status", JValue.str "INVALID"),
         ("score_errors", JValue.str
           "Submission could not be evaluated due to validation errors.")],
       "INVALID"⟩
  else runScoring M res inp

/-- The document `res` on which `main` operates: the read result, or the
default document when reading raised. -/
def resDoc (inp : RunInput) : Doc := inp.readResult.getD defaultDoc

/-- The update merged into the results document on the SCORED path of a
`task1` run. -/
def scoredUpd (roc auprc : ℚ) : Doc :=
  [("score_status", JValue.str "SCORED"), ("score_errors", JValue.str ""),
   ("auc_roc", JValue.num roc), ("auprc", JValue.num auprc)]

/-! ## Test fixtures (concrete instances used by witnesses) -/

/-- A concrete metric library whose calls all succeed, for witnesses. -/
def constLib : MetricLib where
  roc_auc_score := fun _ _ => Except.ok 1
  precision_recall_curve := fun _ _ => Except.ok ([1], [0], [])
  auc := fun _ _ => Except.ok (1/2)

/-- A small groundtruth table (mirrors the test fixture data). -/
def sampleTruth : List GtRow := [⟨"A_01", 1⟩, ⟨"A_02", 0⟩, ⟨"A_03", 1⟩]

/-- A small predictions table (mirrors the test fixture data). -/
def samplePred : List PredRow :=
  [⟨"A_01", 1/2⟩, ⟨"A_02", 1/2⟩, ⟨"A_03", 1/2⟩]

/-- A run whose results document carries the unrecognized validation
status `"PENDING"`. -/
def inpPending : RunInput :=
  { readResult := some [("validation_status", JValue.str "PENDING")],
    folder := ["truth.csv"], truth := sampleTruth, pred := samplePred,
    task := "task1" }

/-- A run whose results document records a failed validation. -/
def inpFailedValidation : RunInput :=
  { readResult := some [("validation_status", JValue.str "INVALID")],
    folder := ["truth.csv"], truth := sampleTruth, pred := samplePred,
    task := "task1" }

/-- A run with a validated results document. -/
def inpValidated : RunInput :=
  { readResult := some [("validation_status", JValue.str "VALIDATED")],
    folder := ["truth.csv"], truth := sampleTruth, pred := samplePred,
    task := "task1" }

/-- A 464-character task name. -/
def longTask : String := String.mk (List.replicate 464 'a')

/-- A validated run whose `--task` option is the 464-character name. -/
def inpLongTask : RunInput :=
  { readResult := some [("validation_status", JValue.str "VALIDATED")],
    folder := ["truth.csv"], truth := sampleTruth, pred := samplePred,
    task := longTask }

/-- A run whose results file is missing and whose task is unknown. -/
def inpNoResultsBadTask : RunInput :=
  { readResult := none, folder := ["truth.csv"], truth := sampleTruth,
    pred := samplePred, task := "task2" }

/-- A run whose results file is missing (and scoring succeeds). -/
def inpNoResults : RunInput :=
  { readResult := none, folder := ["truth.csv"], truth := sampleTruth,
    pred := samplePred, task := "task1" }

/-- A failed-validation run whose document already carries a stale
`auc_roc` value from an earlier scored run. -/
def inpStaleMetrics : RunInput :=
  { readResult := some [("validation_status", JValue.str "INVALID"),
      ("auc_roc", JValue.num 1)],
    folder := ["truth.csv"], truth := sampleTruth, pred := samplePred,
    task := "task1" }

/-- A failed-validation run over an empty groundtruth folder. -/
def inpEmptyFolder : RunInput :=
  { readResult := some [("validation_status", JValue.str "INVALID")],
    folder := [], truth := [], pred := [], task := "task1" }

/-- A validated run over an empty groundtruth folder. -/
def inpValidatedEmptyFolder : RunInput :=
  { readResult := some [("validation_status", JValue.str "VALIDATED")],
    folder := [], truth := [], pred := [], task := "task1" }

/-! ## Theorems -/

/-! ### Lookup lemmas for the document merge -/

theorem Doc.get_append (a b : Doc) (k : String) :
    Doc.get (a ++ b) k = match Doc.get a k with
      | some v => some v
      | none => Doc.get b k := by
  induction a with
  | nil => simp [Doc.get]
  | cons kv rest ih =>
      by_cases h : kv.1 = k
      · simp [Doc.get, h]
      · simp [Doc.get, h, ih]

theorem Doc.get_map_update (d e : Doc) (k : String) :
    Doc.get (d.map (fun kv => (kv.1, (Doc.get e kv.1).getD kv.2))) k
      = (Doc.get d k).map (fun v => (Doc.get e k).getD v) := by
  induction d with
  | nil => simp [Doc.get]
  | cons kv rest ih =>
      by_cases h : kv.1 = k
      · subst h; simp [Doc.get]
      · simp [Doc.get, h, ih]

theorem Doc.get_filter_of_none (d e : Doc) (k : String)
    (h : Doc.get d k = none) :
    Doc.get (e.filter (fun kv => (Doc.get d kv.1).isNone)) k = Doc.get e k := by
  induction e with
  | nil => simp
  | cons kv rest ih =>
      by_cases hk : kv.1 = k
      · subst hk
        simp [List.filter, h, Doc.get]
      · rcases hd : Doc.get d kv.1 with _ | v
        · simpa [List.filter, hd, Doc.get, hk] using ih
        · simpa [List.filter, hd, Doc.get, hk] using ih

theorem Doc.get_filter_of_some (d e : Doc) (k : String) (v : JValue)
    (h : Doc.get d k = some v) :
    Doc.get (e.filter (fun kv => (Doc.get d kv.1).isNone)) k = none := by
  induction e with
  | nil => simp [Doc.get]
  | cons kv rest ih =>
      by_cases hk : kv.1 = k
      · subst hk
        simp [List.filter, h, ih]
      · rcases hd : Doc.get d kv.1 with _ | w
        · simpa [List.filter, hd, Doc.get, hk] using ih
        · simpa [List.filter, hd, Doc.get, hk] using ih

/-- Lookup after a Python `|=` merge: a key present in the update `e`
takes its value from `e`; any other key keeps its value from `d`. -/
theorem Doc.get_merge (d e : Doc) (k : String) :
    Doc.get (Doc.merge d e) k = match Doc.get e k with
      | some v => some v
      | none => Doc.get d k := by
  unfold Doc.merge
  rw [Doc.get_append, Doc.get_map_update]
  rcases hd : Doc.get d k with _ | v
  · rw [Doc.get_filter_of_none d e k hd]
    rcases he : Doc.get e k with _ | w <;> simp
  · rcases he : Doc.get e k with _ | w
    · simp
    · simp

/-! ## C2: extraction of the unique groundtruth file -/

/-- C2: `extract_gt_file` returns a path exactly when the folder holds
exactly one non-manifest file, namely that file; with zero or several
candidates it raises `ValueError` instead. -/
theorem extract_gt_file_spec (folder : List String) :
    (∀ p, extract_gt_file folder = Except.ok p ↔
        folder.filter (fun f => f ≠ MANIFEST) = [p]) ∧
    ((folder.filter (fun f => f ≠ MANIFEST)).length ≠ 1 ↔
        ∃ e, extract_gt_file folder = Except.error e) := by
  unfold extract_gt_file
  rcases h : folder.filter (fun f => f ≠ MANIFEST) with _ | ⟨a, _ | ⟨b, l⟩⟩ <;>
    simp [h]

/-- Witness for C2 at a concrete folder: the manifest is filtered out and
the unique remaining file is returned. -/
theorem extract_gt_file_spec_witness :
    extract_gt_file ["truth.csv", MANIFEST] = Except.ok "truth.csv" :=
  ((extract_gt_file_spec ["truth.csv", MANIFEST]).1 "truth.csv").mpr (by decide)

/-! ## C3: left join and metric computation in `score_task1` -/

/-- Projecting the joined rows to their groundtruth part gives each
groundtruth row in its original order, repeated once per matching
prediction (or once when unmatched). -/
theorem leftMerge_fst (truth : List GtRow) (pred : List PredRow) :
    (leftMerge truth pred).map Prod.fst
      = truth.flatMap (fun t =>
          List.replicate
            (max (pred.countP (fun p => p.id = t.id)) 1) t) := by
  induction truth with
  | nil => simp [leftMerge]
  | cons t rest ih =>
      simp only [leftMerge, List.flatMap_cons, List.map_append] at ih ⊢
      rcases h : pred.filter (fun p => p.id = t.id) with _ | ⟨m, ms⟩
      · have hc : pred.countP (fun p => p.id = t.id) = 0 := by
          rw [List.countP_eq_length_filter, h]; rfl
        simp [h, hc, ih]
      · have hc : pred.countP (fun p => p.id = t.id) = ms.length + 1 := by
          rw [List.countP_eq_length_filter, h]; rfl
        have hmax : max (ms.length + 1) 1 = ms.length + 1 :=
          Nat.max_eq_left (Nat.le_add_left 1 ms.length)
        simp only [h, hc, hmax, ih, List.map_map]
        congr 1
        simp [Function.comp_def, List.replicate_succ]

/-- Every joined row's probability comes from a prediction row with the
same `id`, or is missing exactly when no prediction matches. -/
theorem leftMerge_snd (truth : List GtRow) (pred : List PredRow) :
    ∀ r ∈ leftMerge truth pred,
      (r.2 = none ∧ ∀ p ∈ pred, p.id ≠ r.1.id) ∨
      (∃ p ∈ pred, p.id = r.1.id ∧ r.2 = some p.probability) := by
  intro r hr
  rw [leftMerge, List.mem_flatMap] at hr
  obtain ⟨t, _ht, hmem⟩ := hr
  rcases h : pred.filter (fun p => p.id = t.id) with _ | ⟨m, ms⟩
  · rw [h] at hmem
    simp only [List.mem_singleton] at hmem
    subst hmem
    left
    refine ⟨rfl, fun p hp => ?_⟩
    have := List.filter_eq_nil_iff.mp h p hp
    simpa using this
  · rw [h] at hmem
    rw [List.mem_map] at hmem
    obtain ⟨p, hp, hpr⟩ := hmem
    have hp' : p ∈ pred.filter (fun p => p.id = t.id) := h ▸ hp
    rw [List.mem_filter] at hp'
    right
    refine ⟨p, hp'.1, ?_, ?_⟩
    · subst hpr; simpa using hp'.2
    · subst hpr; rfl

/-- C3: `score_task1` left-joins the predictions onto the groundtruth on
`id` preserving groundtruth row order, and on success returns exactly the
AUC-ROC and the area under the precision-recall curve computed over the
joined `disease` and `probability` columns. -/
theorem score_task1_spec (M : MetricLib) (truth : List GtRow)
    (pred : List PredRow) :
    ((leftMerge truth pred).map Prod.fst
      = truth.flatMap (fun t =>
          List.replicate (max (pred.countP (fun p => p.id = t.id)) 1) t)) ∧
    (∀ r ∈ leftMerge truth pred,
      (r.2 = none ∧ ∀ p ∈ pred, p.id ≠ r.1.id) ∨
      (∃ p ∈ pred, p.id = r.1.id ∧ r.2 = some p.probability)) ∧
    (∀ roc precisions recalls thresholds auprc,
      M.roc_auc_score ((leftMerge truth pred).map (fun r => r.1.disease))
          ((leftMerge truth pred).map (fun r => r.2)) = Except.ok roc →
      M.precision_recall_curve
          ((leftMerge truth pred).map (fun r => r.1.disease))
          ((leftMerge truth pred).map (fun r => r.2))
        = Except.ok (precisions, recalls, thresholds) →
      M.auc recalls precisions = Except.ok auprc →
      score_task1 M truth pred
        = Except.ok [("auc_roc", roc), ("auprc", auprc)]) := by
  refine ⟨leftMerge_fst truth pred, leftMerge_snd truth pred, ?_⟩
  intro roc precisions recalls thresholds auprc hroc hcurve hauc
  simp only [score_task1, hroc, hcurve, hauc]

/-- Witness for C3 at concrete tables and a concrete metric library. -/
theorem score_task1_spec_witness :
    score_task1 constLib sampleTruth samplePred
      = Except.ok [("auc_roc", 1), ("auprc", 1/2)] :=
  (score_task1_spec constLib sampleTruth samplePred).2.2 1 [1] [0] [] (1/2)
    rfl rfl rfl

/-! ### Helper lemmas about `score` and `main` -/

/-- A successful `score` call returns exactly the two-entry metrics
dictionary of `score_task1`. -/
theorem score_ok_shape (M : MetricLib) (task : String) (truth : List GtRow)
    (pred : List PredRow) (s : List (String × ℚ))
    (h : score M task truth pred = Except.ok s) :
    ∃ roc auprc, s = [("auc_roc", roc), ("auprc", auprc)] := by
  unfold score at h
  by_cases ht : task = "task1"
  · rw [if_pos ht] at h
    rcases hs : score_task1 M truth pred with m | s'
    · rw [hs] at h; exact absurd h (by simp)
    · rw [hs] at h
      simp only [Except.ok.injEq] at h
      subst h
      simp only [score_task1] at hs
      split at hs
      · exact absurd hs (by simp)
      · split at hs
        · exact absurd hs (by simp)
        · split at hs
          · exact absurd hs (by simp)
          · simp only [Except.ok.injEq] at hs
            exact ⟨_, _, hs.symm⟩
  · rw [if_neg ht] at h
    exact absurd h (by simp)

/-- Exhaustive case analysis of a completed run of `main`: the validation
gate branch, or one of the three outcomes of the scoring branch, each with
its exact merged document and printed status. -/
theorem main_cases (M : MetricLib) (inp : RunInput) (out : RunOutcome)
    (h : main M inp = Except.ok out) :
    (Doc.get (resDoc inp) "validation_status" = some (JValue.str "INVALID") ∧
      out = ⟨Doc.merge (resDoc inp)
        [("score_status", JValue.str "INVALID"),
         ("score_errors", JValue.str
           "Submission could not be evaluated due to validation errors.")],
        "INVALID"⟩) ∨
    (Doc.get (resDoc inp) "validation_status" ≠ some (JValue.str "INVALID") ∧
      (∃ gt, extract_gt_file inp.folder = Except.ok gt) ∧
      ((∃ scores, score M inp.task inp.truth inp.pred = Except.ok scores ∧
          out = ⟨Doc.merge (resDoc inp)
            ([("score_status", JValue.str "SCORED"),
              ("score_errors", JValue.str "")]
              ++ scores.map (fun kv => (kv.1, JValue.num kv.2))),
            "SCORED"⟩) ∨
       (∃ m, score M inp.task inp.truth inp.pred
            = Except.error (ScoreExn.valueError m) ∧
          out = ⟨Doc.merge (resDoc inp)
            [("score_status", JValue.str "INVALID"),
             ("score_errors", JValue.str
               "Error encountered during scoring; submission not evaluated.")],
            "INVALID"⟩) ∨
       (score M inp.task inp.truth inp.pred
            = Except.error ScoreExn.lookupError ∧
          out = ⟨Doc.merge (resDoc inp)
            [("score_status", JValue.str "INVALID"),
             ("score_errors", JValue.str
               ("Invalid challenge task specified: `" ++ inp.task ++ "`"))],
            "INVALID"⟩))) := by
  simp only [main] at h
  by_cases hv : Doc.get (inp.readResult.getD defaultDoc) "validation_status"
      = some (JValue.str "INVALID")
  · rw [if_pos hv] at h
    left
    simp only [Except.ok.injEq] at h
    exact ⟨hv, h.symm⟩
  · rw [if_neg hv] at h
    right
    refine ⟨hv, ?_⟩
    simp only [runScoring] at h
    rcases hex : extract_gt_file inp.folder with e | gt
    · rw [hex] at h; exact absurd h (by simp)
    · rw [hex] at h
      refine ⟨⟨gt, rfl⟩, ?_⟩
      rcases hsc : score M inp.task inp.truth inp.pred with exn | scores
      · rcases exn with m | _
        · rw [hsc] at h
          simp only [Except.ok.injEq] at h
          exact Or.inr (Or.inl ⟨m, rfl, h.symm⟩)
        · rw [hsc] at h
          simp only [Except.ok.injEq] at h
          exact Or.inr (Or.inr ⟨rfl, h.symm⟩)
      · rw [hsc] at h
        simp only [Except.ok.injEq] at h
        exact Or.inl ⟨scores, rfl, h.symm⟩

/-- The invalid-task error message is never the empty string. -/
theorem invalid_task_msg_ne_empty (task : String) :
    ("Invalid challenge task specified: `" ++ task ++ "`") ≠ "" := by
  intro h
  have hlen := congrArg String.length h
  rw [String.length_append, String.length_append] at hlen
  have h1 : ("Invalid challenge task specified: `" : String).length = 35 := rfl
  have h2 : ("`" : String).length = 1 := rfl
  have h3 : ("" : String).length = 0 := rfl
  rw [h1, h2, h3] at hlen
  omega

/-- A completed run changes the document only at `score_status`,
`score_errors` and the metric keys `auc_roc`, `auprc`. -/
theorem main_frame_core (M : MetricLib) (inp : RunInput) (out : RunOutcome)
    (k : String) (h : main M inp = Except.ok out)
    (hk1 : k ≠ "score_status") (hk2 : k ≠ "score_errors")
    (hk3 : k ≠ "auc_roc") (hk4 : k ≠ "auprc") :
    Doc.get out.written k = Doc.get (resDoc inp) k := by
  have base : ∀ v1 v2 : JValue,
      Doc.get [("score_status", v1), ("score_errors", v2)] k = none := by
    intro v1 v2
    simp [Doc.get, Ne.symm hk1, Ne.symm hk2]
  rcases main_cases M inp out h with ⟨_, hout⟩ | ⟨_, _, hbranch⟩
  · subst hout
    simp only [Doc.get_merge, base]
  · rcases hbranch with ⟨scores, hsc, hout⟩ | ⟨m, hsc, hout⟩ | ⟨hsc, hout⟩
    · subst hout
      obtain ⟨roc, auprc, hs⟩ :=
        score_ok_shape M inp.task inp.truth inp.pred scores hsc
      subst hs
      simp only [Doc.get_merge]
      have : Doc.get
          ([("score_status", JValue.str "SCORED"),
            ("score_errors", JValue.str "")]
            ++ [("auc_roc", roc), ("auprc", auprc)].map
                (fun kv => (kv.1, JValue.num kv.2))) k = none := by
        simp [Doc.get, Ne.symm hk1, Ne.symm hk2, Ne.symm hk3, Ne.symm hk4]
      rw [this]
    · subst hout
      simp only [Doc.get_merge, base]
    · subst hout
      simp only [Doc.get_merge, base]

/-! ### C1: the validation gate -/

/-- C1 (amended): the gate skips scoring exactly when `validation_status`
equals `"INVALID"`; in that case the run writes status `"INVALID"` with
the fixed message and never calls the scoring function (the outcome does
not depend on the metric library).  For every other value — `"VALIDATED"`,
absent, or any unrecognized string — the run proceeds to the scoring
branch. -/
theorem main_validation_gate (M : MetricLib) (inp : RunInput) :
    (Doc.get (resDoc inp) "validation_status" = some (JValue.str "INVALID") →
      main M inp = Except.ok ⟨Doc.merge (resDoc inp)
        [("score_status", JValue.str "INVALID"),
         ("score_errors", JValue.str
           "Submission could not be evaluated due to validation errors.")],
        "INVALID"⟩) ∧
    (Doc.get (resDoc inp) "validation_status" ≠ some (JValue.str "INVALID") →
      main M inp = runScoring M (resDoc inp) inp) := by
  constructor
  · intro hv
    simp only [resDoc] at hv
    simp only [main, resDoc]
    rw [if_pos hv]
  · intro hv
    simp only [resDoc] at hv
    simp only [main, resDoc]
    rw [if_neg hv]

/-- Witness for C1 (amended) at a failed-validation document. -/
theorem main_validation_gate_witness :
    main constLib inpFailedValidation
      = Except.ok ⟨Doc.merge (resDoc inpFailedValidation)
          [("score_status", JValue.str "INVALID"),
           ("score_errors", JValue.str
             "Submission could not be evaluated due to validation errors.")],
          "INVALID"⟩ :=
  (main_validation_gate constLib inpFailedValidation).1 (by decide)

/-- C1 counterexample: on a document whose `validation_status` is the
unrecognized value `"PENDING"` — neither `"VALIDATED"` nor absent — the
run does not mark `"INVALID"` and skip; it scores and prints
`"SCORED"`. -/
theorem main_scores_on_pending_status :
    (main constLib inpPending).toOption.map RunOutcome.printed
      = some "SCORED" := by decide

/-! ### C10: missing or unparsable results file -/

/-- C10: when reading the results file raised, the run substitutes the
default document — `validation_status` is `""` and `validation_errors`
the fixed warning — still proceeds to the scoring branch, and any
completed run carries both fields unchanged in the written document. -/
theorem main_missing_results_proceeds (M : MetricLib) (inp : RunInput)
    (h : inp.readResult = none) :
    Doc.get defaultDoc "validation_status" = some (JValue.str "") ∧
    Doc.get defaultDoc "validation_errors" = some (JValue.str
      ("Validation results not found. Proceeding with scoring but it "
        ++ "may fail or results may be inaccurate.")) ∧
    main M inp = runScoring M defaultDoc inp ∧
    (∀ out, main M inp = Except.ok out →
      Doc.get out.written "validation_status" = some (JValue.str "") ∧
      Doc.get out.written "validation_errors" = some (JValue.str
        ("Validation results not found. Proceeding with scoring but it "
          ++ "may fail or results may be inaccurate."))) := by
  have hres : resDoc inp = defaultDoc := by rw [resDoc, h]; rfl
  refine ⟨rfl, rfl, ?_, ?_⟩
  · simp only [main, resDoc] at hres ⊢
    rw [hres, if_neg (by decide)]
  · intro out hout
    have h1 := main_frame_core M inp out "validation_status" hout
      (by decide) (by decide) (by decide) (by decide)
    have h2 := main_frame_core M inp out "validation_errors" hout
      (by decide) (by decide) (by decide) (by decide)
    rw [hres] at h1 h2
    exact ⟨h1, h2⟩

/-- Witness for C10 at a concrete run with a missing results file. -/
theorem main_missing_results_proceeds_witness :
    main constLib inpNoResults = runScoring constLib defaultDoc inpNoResults ∧
    Doc.get defaultDoc "validation_status" = some (JValue.str "") :=
  ⟨(main_missing_results_proceeds constLib inpNoResults rfl).2.2.1,
   (main_missing_results_proceeds constLib inpNoResults rfl).1⟩

/-! ### C5: the merge is a frame on all other keys -/

/-- C5: a completed run writes the original document with only the
computed fields merged in: every key other than `score_status`,
`score_errors`, `auc_roc` and `auprc` keeps its original value (in
particular `validation_status` and `validation_errors`). -/
theorem main_preserves_untouched_keys (M : MetricLib) (inp : RunInput)
    (d : Doc) (out : RunOutcome) (k : String)
    (hread : inp.readResult = some d)
    (hk : k ≠ "score_status" ∧ k ≠ "score_errors"
      ∧ k ≠ "auc_roc" ∧ k ≠ "auprc")
    (hrun : main M inp = Except.ok out) :
    Doc.get out.written k = Doc.get d k := by
  have hfr := main_frame_core M inp out k hrun hk.1 hk.2.1 hk.2.2.1 hk.2.2.2
  rw [resDoc, hread] at hfr
  exact hfr

/-- Witness for C5: `validation_status` survives a failed-validation
run unchanged. -/
theorem main_preserves_untouched_keys_witness :
    Doc.get (Doc.merge (resDoc inpFailedValidation)
        [("score_status", JValue.str "INVALID"),
         ("score_errors", JValue.str
           "Submission could not be evaluated due to validation errors.")])
      "validation_status"
      = Doc.get [("validation_status", JValue.str "INVALID")]
          "validation_status" :=
  main_preserves_untouched_keys constLib inpFailedValidation
    [("validation_status", JValue.str "INVALID")]
    ⟨Doc.merge (resDoc inpFailedValidation)
      [("score_status", JValue.str "INVALID"),
       ("score_errors", JValue.str
         "Submission could not be evaluated due to validation errors.")],
      "INVALID"⟩
    "validation_status" rfl (by decide) rfl

/-! ### C6: the successful scoring path -/

/-- C6: on a run that is not gated, whose folder yields a groundtruth
file, whose task is `"task1"` and whose library metric calls succeed,
`main` writes the document with `score_status = "SCORED"`, an empty
`score_errors`, and the metric keys `auc_roc` and `auprc` bound to the
computed values, over the columns of the left join. -/
theorem main_scored_success (M : MetricLib) (inp : RunInput) (gt : String)
    (roc auprc : ℚ) (precisions recalls thresholds : List ℚ)
    (hgate : Doc.get (resDoc inp) "validation_status"
      ≠ some (JValue.str "INVALID"))
    (hex : extract_gt_file inp.folder = Except.ok gt)
    (htask : inp.task = "task1")
    (hroc : M.roc_auc_score
        ((leftMerge inp.truth inp.pred).map (fun r => r.1.disease))
        ((leftMerge inp.truth inp.pred).map (fun r => r.2)) = Except.ok roc)
    (hcurve : M.precision_recall_curve
        ((leftMerge inp.truth inp.pred).map (fun r => r.1.disease))
        ((leftMerge inp.truth inp.pred).map (fun r => r.2))
      = Except.ok (precisions, recalls, thresholds))
    (hauc : M.auc recalls precisions = Except.ok auprc) :
    main M inp = Except.ok
      ⟨Doc.merge (resDoc inp) (scoredUpd roc auprc), "SCORED"⟩ ∧
    Doc.get (Doc.merge (resDoc inp) (scoredUpd roc auprc)) "score_status"
      = some (JValue.str "SCORED") ∧
    Doc.get (Doc.merge (resDoc inp) (scoredUpd roc auprc)) "score_errors"
      = some (JValue.str "") ∧
    Doc.get (Doc.merge (resDoc inp) (scoredUpd roc auprc)) "auc_roc"
      = some (JValue.num roc) ∧
    Doc.get (Doc.merge (resDoc inp) (scoredUpd roc auprc)) "auprc"
      = some (JValue.num auprc) := by
  have hs1 : score_task1 M inp.truth inp.pred
      = Except.ok [("auc_roc", roc), ("auprc", auprc)] := by
    simp only [score_task1, hroc, hcurve, hauc]
  have hs : score M inp.task inp.truth inp.pred
      = Except.ok [("auc_roc", roc), ("auprc", auprc)] := by
    unfold score
    rw [if_pos htask, hs1]
  refine ⟨?_, ?_, ?_, ?_, ?_⟩
  · simp only [resDoc] at hgate
    simp only [main, resDoc]
    rw [if_neg hgate]
    simp only [runScoring, hex, hs]
    rfl
  · rw [Doc.get_merge]; rfl
  · rw [Doc.get_merge]; rfl
  · rw [Doc.get_merge]; rfl
  · rw [Doc.get_merge]; rfl

/-- Witness for C6 at a validated run with the concrete metric library. -/
theorem main_scored_success_witness :
    main constLib inpValidated = Except.ok
      ⟨Doc.merge (resDoc inpValidated) (scoredUpd 1 (1/2)), "SCORED"⟩ :=
  (main_scored_success constLib inpValidated "truth.csv" 1 (1/2) [1] [0] []
    (by decide) rfl rfl rfl rfl rfl).1

/-! ### Lookup computations for the two update shapes -/

/-- `score_status` after merging an INVALID update. -/
theorem get_merge_invalid_status (res : Doc) (msg : String) :
    Doc.get (Doc.merge res
      [("score_status", JValue.str "INVALID"),
       ("score_errors", JValue.str msg)]) "score_status"
      = some (JValue.str "INVALID") := by
  rw [Doc.get_merge]; rfl

/-- `score_errors` after merging an INVALID update. -/
theorem get_merge_invalid_errors (res : Doc) (msg : String) :
    Doc.get (Doc.merge res
      [("score_status", JValue.str "INVALID"),
       ("score_errors", JValue.str msg)]) "score_errors"
      = some (JValue.str msg) := by
  rw [Doc.get_merge]; rfl

/-- Any other key after merging an INVALID update. -/
theorem get_merge_invalid_other (res : Doc) (msg : String) (k : String)
    (h1 : k ≠ "score_status") (h2 : k ≠ "score_errors") :
    Doc.get (Doc.merge res
      [("score_status", JValue.str "INVALID"),
       ("score_errors", JValue.str msg)]) k = Doc.get res k := by
  rw [Doc.get_merge]
  have h : Doc.get
      [("score_status", JValue.str "INVALID"),
       ("score_errors", JValue.str msg)] k = none := by
    simp [Doc.get, Ne.symm h1, Ne.symm h2]
  rw [h]

/-- The SCORED update produced by `runScoring` is `scoredUpd`. -/
theorem scored_upd_eq (roc auprc : ℚ) :
    [("score_status", JValue.str "SCORED"), ("score_errors", JValue.str "")]
      ++ [("auc_roc", roc), ("auprc", auprc)].map
          (fun kv => (kv.1, JValue.num kv.2))
      = scoredUpd roc auprc := rfl

/-- `score_status` after merging the SCORED update. -/
theorem get_merge_scored_status (res : Doc) (roc auprc : ℚ) :
    Doc.get (Doc.merge res (scoredUpd roc auprc)) "score_status"
      = some (JValue.str "SCORED") := by
  rw [Doc.get_merge]; rfl

/-- `score_errors` after merging the SCORED update. -/
theorem get_merge_scored_errors (res : Doc) (roc auprc : ℚ) :
    Doc.get (Doc.merge res (scoredUpd roc auprc)) "score_errors"
      = some (JValue.str "") := by
  rw [Doc.get_merge]; rfl

/-- `auc_roc` after merging the SCORED update. -/
theorem get_merge_scored_roc (res : Doc) (roc auprc : ℚ) :
    Doc.get (Doc.merge res (scoredUpd roc auprc)) "auc_roc"
      = some (JValue.num roc) := by
  rw [Doc.get_merge]; rfl

/-- `auprc` after merging the SCORED update. -/
theorem get_merge_scored_auprc (res : Doc) (roc auprc : ℚ) :
    Doc.get (Doc.merge res (scoredUpd roc auprc)) "auprc"
      = some (JValue.num auprc) := by
  rw [Doc.get_merge]; rfl

/-! ### C9: status/error/metric invariants of the written document -/

/-- C9 (amended): every completed run writes `score_status` equal to the
printed status, which is `"SCORED"` or `"INVALID"`; `score_errors` is
empty exactly when the status is `"SCORED"`; and the metric keys are
present exactly when the status is `"SCORED"`, provided the original
document did not already carry them (stale metric keys from an earlier
run are preserved regardless of the new status). -/
theorem main_status_invariants (M : MetricLib) (inp : RunInput)
    (out : RunOutcome) (h : main M inp = Except.ok out) :
    (out.printed = "SCORED" ∨ out.printed = "INVALID") ∧
    Doc.get out.written "score_status" = some (JValue.str out.printed) ∧
    (Doc.get out.written "score_errors" = some (JValue.str "") ↔
      out.printed = "SCORED") ∧
    (Doc.get (resDoc inp) "auc_roc" = none →
      ((Doc.get out.written "auc_roc").isSome ↔ out.printed = "SCORED")) ∧
    (Doc.get (resDoc inp) "auprc" = none →
      ((Doc.get out.written "auprc").isSome ↔ out.printed = "SCORED")) := by
  rcases main_cases M inp out h with ⟨hv, hout⟩ | ⟨hv, ⟨gt, hex⟩, hbr⟩
  · have hw : out.written = Doc.merge (resDoc inp)
        [("score_status", JValue.str "INVALID"),
         ("score_errors", JValue.str
           "Submission could not be evaluated due to validation errors.")] := by
      rw [hout]
    have hp : out.printed = "INVALID" := by rw [hout]
    refine ⟨Or.inr hp, ?_, ?_, ?_, ?_⟩
    · rw [hw, hp, get_merge_invalid_status]
    · rw [hw, hp, get_merge_invalid_errors]
      decide
    · intro hres
      rw [hw, hp,
        get_merge_invalid_other (resDoc inp) _ "auc_roc"
          (by decide) (by decide), hres]
      decide
    · intro hres
      rw [hw, hp,
        get_merge_invalid_other (resDoc inp) _ "auprc"
          (by decide) (by decide), hres]
      decide
  · rcases hbr with ⟨scores, hsc, hout⟩ | ⟨m, hsc, hout⟩ | ⟨hsc, hout⟩
    · obtain ⟨roc, auprc, hs⟩ :=
        score_ok_shape M inp.task inp.truth inp.pred scores hsc
      subst hs
      have hw : out.written
          = Doc.merge (resDoc inp) (scoredUpd roc auprc) := by
        rw [hout, scored_upd_eq]
      have hp : out.printed = "SCORED" := by rw [hout]
      refine ⟨Or.inl hp, ?_, ?_, ?_, ?_⟩
      · rw [hw, hp, get_merge_scored_status]
      · rw [hw, hp, get_merge_scored_errors]
        decide
      · intro _
        rw [hw, hp, get_merge_scored_roc]
        simp
      · intro _
        rw [hw, hp, get_merge_scored_auprc]
        simp
    · have hw : out.written = Doc.merge (resDoc inp)
          [("score_status", JValue.str "INVALID"),
           ("score_errors", JValue.str
             "Error encountered during scoring; submission not evaluated.")] := by
        rw [hout]
      have hp : out.printed = "INVALID" := by rw [hout]
      refine ⟨Or.inr hp, ?_, ?_, ?_, ?_⟩
      · rw [hw, hp, get_merge_invalid_status]
      · rw [hw, hp, get_merge_invalid_errors]
        decide
      · intro hres
        rw [hw, hp,
          get_merge_invalid_other (resDoc inp) _ "auc_roc"
            (by decide) (by decide), hres]
        decide
      · intro hres
        rw [hw, hp,
          get_merge_invalid_other (resDoc inp) _ "auprc"
            (by decide) (by decide), hres]
        decide
    · have hw : out.written = Doc.merge (resDoc inp)
          [("score_status", JValue.str "INVALID"),
           ("score_errors", JValue.str
             ("Invalid challenge task specified: `" ++ inp.task ++ "`"))] := by
        rw [hout]
      have hp : out.printed = "INVALID" := by rw [hout]
      refine ⟨Or.inr hp, ?_, ?_, ?_, ?_⟩
      · rw [hw, hp, get_merge_invalid_status]
      · rw [hw, hp, get_merge_invalid_errors]
        constructor
        · intro hh
          exact absurd (JValue.str.inj (Option.some.inj hh))
            (invalid_task_msg_ne_empty inp.task)
        · intro hh
          exact absurd hh (by decide)
      · intro hres
        rw [hw, hp,
          get_merge_invalid_other (resDoc inp) _ "auc_roc"
            (by decide) (by decide), hres]
        decide
      · intro hres
        rw [hw, hp,
          get_merge_invalid_other (resDoc inp) _ "auprc"
            (by decide) (by decide), hres]
        decide

/-- Witness for C9 (amended) at a concrete scored run. -/
theorem main_status_invariants_witness :
    Doc.get (Doc.merge (resDoc inpValidated) (scoredUpd 1 (1/2)))
      "score_status" = some (JValue.str "SCORED") :=
  (main_status_invariants constLib inpValidated
    ⟨Doc.merge (resDoc inpValidated) (scoredUpd 1 (1/2)), "SCORED"⟩ rfl).2.1

/-- C9 counterexample: a results document that already carries `auc_roc`
from an earlier scored run keeps it even though the new run ends
`"INVALID"`, so the metric key is present while the status is not
`"SCORED"`. -/
theorem main_keeps_stale_metric_key :
    (main constLib inpStaleMetrics).toOption.map
        (fun out => (out.printed, Doc.get out.written "auc_roc"))
      = some ("INVALID", some (JValue.num 1)) := by decide

/-! ### C4: the error string is written untruncated -/

set_option maxRecDepth 8192 in
/-- C4 counterexample: with a 464-character task name the stored
`score_errors` string is exactly the untruncated invalid-task message of
length 500 — not under 500 characters, and not ending in an ellipsis
(its characters do not end with the suffix `"..."`). -/
theorem main_error_message_not_truncated :
    (main constLib inpLongTask).toOption.map
        (fun out => Doc.get out.written "score_errors")
      = some (some (JValue.str
          ("Invalid challenge task specified: `" ++ longTask ++ "`"))) ∧
    ("Invalid challenge task specified: `" ++ longTask ++ "`").length
      = 500 ∧
    "...".data.isSuffixOf
      ("Invalid challenge task specified: `" ++ longTask ++ "`").data
      = false := by
  refine ⟨?_, ?_, ?_⟩
  · rfl
  · decide
  · decide

/-- C4 (amended): `main` performs no truncation: the stored
`score_errors` is always exactly one of the three fixed messages or the
invalid-task message carrying the full task name, whose length is
`36 + task.length` and therefore unbounded. -/
theorem main_score_errors_forms (M : MetricLib) (inp : RunInput)
    (out : RunOutcome) (h : main M inp = Except.ok out) :
    (Doc.get out.written "score_errors" = some (JValue.str "") ∨
     Doc.get out.written "score_errors" = some (JValue.str
       "Submission could not be evaluated due to validation errors.") ∨
     Doc.get out.written "score_errors" = some (JValue.str
       "Error encountered during scoring; submission not evaluated.") ∨
     Doc.get out.written "score_errors" = some (JValue.str
       ("Invalid challenge task specified: `" ++ inp.task ++ "`"))) ∧
    ("Invalid challenge task specified: `" ++ inp.task ++ "`").length
      = 36 + inp.task.length := by
  constructor
  · rcases main_cases M inp out h with ⟨_, hout⟩ | ⟨_, _, hbr⟩
    · right; left
      rw [hout]
      exact get_merge_invalid_errors _ _
    · rcases hbr with ⟨scores, hsc, hout⟩ | ⟨m, hsc, hout⟩ | ⟨hsc, hout⟩
      · obtain ⟨roc, auprc, hs⟩ :=
          score_ok_shape M inp.task inp.truth inp.pred scores hsc
        subst hs
        left
        rw [hout]
        show Doc.get (Doc.merge (resDoc inp) (scoredUpd roc auprc))
          "score_errors" = some (JValue.str "")
        exact get_merge_scored_errors _ _ _
      · right; right; left
        rw [hout]
        exact get_merge_invalid_errors _ _
      · right; right; right
        rw [hout]
        exact get_merge_invalid_errors _ _
  · rw [String.length_append, String.length_append]
    have h1 : ("Invalid challenge task specified: `" : String).length = 35 :=
      rfl
    have h2 : ("`" : String).length = 1 := rfl
    rw [h1, h2]
    omega

/-- Witness for C4 (amended): the length identity at the task `"task1"`
of a concrete completed run. -/
theorem main_score_errors_forms_witness :
    ("Invalid challenge task specified: `" ++ "task1" ++ "`").length
      = 36 + ("task1" : String).length :=
  (main_score_errors_forms constLib inpFailedValidation
    ⟨Doc.merge (resDoc inpFailedValidation)
      [("score_status", JValue.str "INVALID"),
       ("score_errors", JValue.str
         "Submission could not be evaluated due to validation errors.")],
     "INVALID"⟩ rfl).2

/-! ### C7: the failure-handling structure of `main` -/

/-- C7 counterexample: a run whose results file is missing and whose task
is unknown completes and writes: the read failure is caught by the outer
`try`/`except` around `json.load` (the default warning appears in the
output) and the `LookupError` raised by the `score` routing table — not
by a library metric call, which is never reached — is caught by the
inner one. -/
theorem main_catches_read_and_routing_errors :
    (main constLib inpNoResultsBadTask).toOption.map
        (fun out => (out.printed, Doc.get out.written "score_errors",
          Doc.get out.written "validation_errors"))
      = some ("INVALID",
          some (JValue.str "Invalid challenge task specified: `task2`"),
          some (JValue.str
            ("Validation results not found. Proceeding with scoring but it "
              ++ "may fail or results may be inaccurate."))) := by decide

/-- C7 (amended): `main` has two `try`/`except` blocks, not one: the
outer one catches failures of reading the results file (substituting the
default document), the inner one catches `ValueError` and `LookupError`
of the `score` call — the latter raised by task routing, not by a
library metric call — while `extract_gt_file` failures are never
caught. -/
theorem main_exception_handling (M : MetricLib) (inp : RunInput) :
    (∀ e, main M inp = Except.error e →
      extract_gt_file inp.folder = Except.error e) ∧
    (inp.readResult = none → main M inp = runScoring M defaultDoc inp) ∧
    (∀ gt m, Doc.get (resDoc inp) "validation_status"
        ≠ some (JValue.str "INVALID") →
      extract_gt_file inp.folder = Except.ok gt →
      score M inp.task inp.truth inp.pred
        = Except.error (ScoreExn.valueError m) →
      main M inp = Except.ok ⟨Doc.merge (resDoc inp)
        [("score_status", JValue.str "INVALID"),
         ("score_errors", JValue.str
           "Error encountered during scoring; submission not evaluated.")],
        "INVALID"⟩) ∧
    (∀ gt, Doc.get (resDoc inp) "validation_status"
        ≠ some (JValue.str "INVALID") →
      extract_gt_file inp.folder = Except.ok gt →
      score M inp.task inp.truth inp.pred
        = Except.error ScoreExn.lookupError →
      main M inp = Except.ok ⟨Doc.merge (resDoc inp)
        [("score_status", JValue.str "INVALID"),
         ("score_errors", JValue.str
           ("Invalid challenge task specified: `" ++ inp.task ++ "`"))],
        "INVALID"⟩) := by
  refine ⟨?_, ?_, ?_, ?_⟩
  · intro e he
    simp only [main] at he
    by_cases hv : Doc.get (inp.readResult.getD defaultDoc)
        "validation_status" = some (JValue.str "INVALID")
    · rw [if_pos hv] at he
      exact absurd he (by simp)
    · rw [if_neg hv] at he
      simp only [runScoring] at he
      rcases hex : extract_gt_file inp.folder with e' | gt
      · rw [hex] at he
        simp only [Except.error.injEq] at he
        rw [he]
      · rw [hex] at he
        rcases hsc : score M inp.task inp.truth inp.pred with exn | scores
        · rcases exn with m | _ <;> rw [hsc] at he <;>
            exact absurd he (by simp)
        · rw [hsc] at he
          exact absurd he (by simp)
  · intro h
    simp only [main]
    rw [show inp.readResult.getD defaultDoc = defaultDoc from by
      rw [h]; rfl]
    rw [if_neg (by decide)]
  · intro gt m hv hex hsc
    simp only [resDoc] at hv
    simp only [main, resDoc]
    rw [if_neg hv]
    simp only [runScoring, hex, hsc]
  · intro gt hv hex hsc
    simp only [resDoc] at hv
    simp only [main, resDoc]
    rw [if_neg hv]
    simp only [runScoring, hex, hsc]

/-- Witness for C7 (amended): a missing results file is handled by
substituting the default document and running the scoring branch. -/
theorem main_exception_handling_witness :
    main constLib inpNoResultsBadTask
      = runScoring constLib defaultDoc inpNoResultsBadTask :=
  (main_exception_handling constLib inpNoResultsBadTask).2.1 rfl

/-! ### C8: a bad groundtruth folder -/

/-- C8 counterexample: with an empty groundtruth folder but a
failed-validation results document, the run does not raise: it skips
scoring (never calling `extract_gt_file`), writes the document and
prints `"INVALID"`. -/
theorem main_writes_even_with_bad_folder :
    (inpEmptyFolder.folder.filter (fun f => f ≠ MANIFEST)).length = 0 ∧
    (main constLib inpEmptyFolder).toOption.map RunOutcome.printed
      = some "INVALID" := by decide

/-- C8 (amended): when the folder does not hold exactly one non-manifest
file and the run is not stopped by the validation gate, the run
terminates with the uncaught `ValueError` of `extract_gt_file` and
nothing is written. -/
theorem main_extract_failure_uncaught (M : MetricLib) (inp : RunInput)
    (hgate : Doc.get (resDoc inp) "validation_status"
      ≠ some (JValue.str "INVALID"))
    (hlen : (inp.folder.filter (fun f => f ≠ MANIFEST)).length ≠ 1) :
    extract_gt_file inp.folder = Except.error
      ("Expected exactly one groundtruth file in folder. Got "
        ++ toString (inp.folder.filter (fun f => f ≠ MANIFEST)).length
        ++ ". Exiting.") ∧
    main M inp = Except.error
      ("Expected exactly one groundtruth file in folder. Got "
        ++ toString (inp.folder.filter (fun f => f ≠ MANIFEST)).length
        ++ ". Exiting.") := by
  have hex : extract_gt_file inp.folder = Except.error
      ("Expected exactly one groundtruth file in folder. Got "
        ++ toString (inp.folder.filter (fun f => f ≠ MANIFEST)).length
        ++ ". Exiting.") := by
    simp only [extract_gt_file]
    rcases hf : inp.folder.filter (fun f => f ≠ MANIFEST)
        with _ | ⟨a, _ | ⟨b, l⟩⟩
    · rfl
    · exact absurd (by rw [hf]; rfl) hlen
    · rfl
  refine ⟨hex, ?_⟩
  simp only [resDoc] at hgate
  simp only [main]
  rw [if_neg hgate]
  simp only [runScoring, hex]

/-- Witness for C8 (amended): a validated run over an empty folder
terminates with the extraction error and no written document. -/
theorem main_extract_failure_uncaught_witness :
    main constLib inpValidatedEmptyFolder = Except.error
      "Expected exactly one groundtruth file in folder. Got 0. Exiting." :=
  (main_extract_failure_uncaught constLib inpValidatedEmptyFolder
    (by decide) (by decide)).2

end OrcaEval
